import Mathlib

/-!
Shallow embedding of `src/OrbitUnlimitedControls.js`, an orbit-style camera
controller for THREE.js.  The controller keeps a mutable record (camera
position, camera up vector, orbit target, gesture state, previous pointer
position, configuration), and mutates it in event handlers
(`onMouseDown`, `onMouseMove`, `onMouseUp`, `onMouseWheel`, `onKeyDown`)
and the gesture transformers (`rotate`, `dolly`, `pan`), plus `fixUp`,
`update` and `reset`.

The embedding models the mutable object as a `Controls` structure and each
method as a state-transformer function.  JavaScript doubles are modelled by
exact real arithmetic.  Two ghost counters (`fixUpCount`, `changedCount`)
record how often `fixUp` is invoked and how often the change event is
dispatched; they have no influence on the control flow.  The camera's
orientation quaternion (written by `Object3D.lookAt`) is not tracked: the
source only reads `position`, `up`, `target` and configuration fields.
-/

namespace OrbitUnlimited

/-- 2D vector, mirroring `THREE.Vector2` as used by the source. -/
@[ext]
structure Vec2 where
  x : ℝ
  y : ℝ

/-- 3D vector, mirroring `THREE.Vector3` as used by the source. -/
@[ext]
structure Vec3 where
  x : ℝ
  y : ℝ
  z : ℝ

/-- The states of the interaction finite state machine (`State` in the source). -/
inductive State where
  | INACTIVE
  | INDETERMINATE
  | ROTATING
  | DOLLYING
  | PANNING
deriving DecidableEq

/-- `ClickThreshold` from the source: maximal cursor travel for a click. -/
def ClickThreshold : ℝ := 2

noncomputable section

/-- `Vector2.manhattanDistanceTo`: sum of absolute per-axis differences. -/
def Vec2.manhattanDistanceTo (a b : Vec2) : ℝ :=
  |a.x - b.x| + |a.y - b.y|

/-- `Vector3.subVectors` / `Vector3.sub`. -/
def Vec3.sub (a b : Vec3) : Vec3 :=
  ⟨a.x - b.x, a.y - b.y, a.z - b.z⟩

/-- `Vector3.addVectors` / `Vector3.add`. -/
def Vec3.add (a b : Vec3) : Vec3 :=
  ⟨a.x + b.x, a.y + b.y, a.z + b.z⟩

/-- `Vector3.multiplyScalar`. -/
def Vec3.smul (a : Vec3) (s : ℝ) : Vec3 :=
  ⟨a.x * s, a.y * s, a.z * s⟩

/-- `Vector3.divideScalar`. -/
def Vec3.divideScalar (a : Vec3) (s : ℝ) : Vec3 :=
  ⟨a.x / s, a.y / s, a.z / s⟩

/-- `Vector3.dot`. -/
def Vec3.dot (a b : Vec3) : ℝ :=
  a.x * b.x + a.y * b.y + a.z * b.z

/-- `Vector3.crossVectors` / `Vector3.cross`. -/
def Vec3.cross (a b : Vec3) : Vec3 :=
  ⟨a.y * b.z - a.z * b.y, a.z * b.x - a.x * b.z, a.x * b.y - a.y * b.x⟩

/-- `Vector3.length`: Euclidean length. -/
def Vec3.length (a : Vec3) : ℝ :=
  Real.sqrt (a.dot a)

/-- `Vector3.normalize`: THREE divides by `this.length() || 1`, so the zero
vector normalizes to itself. -/
def Vec3.normalize (a : Vec3) : Vec3 :=
  a.divideScalar (if a.length = 0 then 1 else a.length)

/-- The controller record: the fields of `OrbitUnlimitedControls` together
with the controlled camera's fields (`object.position`, `object.up`,
`object.fov`) and the two ghost counters. -/
structure Controls where
  position : Vec3
  up : Vec3
  fov : ℝ
  target : Vec3
  state : State
  prev : Vec2
  clicked : Bool
  radius : ℝ
  basisX : Vec3
  basisY : Vec3
  basisZ : Vec3
  basisT : Vec3
  minDistance : ℝ
  maxDistance : ℝ
  rotateSpeed : ℝ
  zoomSpeed : ℝ
  keyPanSpeed : ℝ
  clientWidth : ℝ
  clientHeight : ℝ
  usePanModAlt : Bool
  usePanModShift : Bool
  usePanModCtrl : Bool
  usePanModMeta : Bool
  keysLEFT : ℕ
  keysUP : ℕ
  keysRIGHT : ℕ
  keysDOWN : ℕ
  target0 : Vec3
  position0 : Vec3
  fixUpCount : ℕ
  changedCount : ℕ

/-- Distance from the camera to the target (`toTarget.length()` in the source). -/
def distToTarget (c : Controls) : ℝ :=
  (c.target.sub c.position).length

/-- The new up vector computed by `fixUp`: `view` is the normalized vector
from position to target, `side = normalize(cross(view, up))`, and the result
is `normalize(cross(side, view))`. -/
def fixUpNewUp (position target up : Vec3) : Vec3 :=
  let view := (target.sub position).normalize
  let side := (view.cross up).normalize
  (side.cross view).normalize

/-- `fixUp`: recompute `this.object.up` so it is orthogonal to the view
vector.  The ghost counter records the invocation. -/
def fixUp (c : Controls) : Controls :=
  { c with up := fixUpNewUp c.position c.target c.up,
           fixUpCount := c.fixUpCount + 1 }

/-- `update`: `lookAt` (changes only the untracked orientation quaternion),
then `fixUp` unless the state is `ROTATING`, then dispatch the change event. -/
def update (c : Controls) : Controls :=
  let c1 := if c.state = State.ROTATING then c else fixUp c
  { c1 with changedCount := c1.changedCount + 1 }

/-- `reset`: restore target and position to their construction-time values,
then `update`. -/
def reset (c : Controls) : Controls :=
  update { c with target := c.target0, position := c.position0 }

/-- `onMouseDown`: enter `INDETERMINATE` and remember the press position.
(The DOM listener bookkeeping has no effect on the modelled record.) -/
def onMouseDown (c : Controls) (x y : ℝ) : Controls :=
  { c with state := State.INDETERMINATE, prev := ⟨x, y⟩ }

/-- `onMouseUp`: if the state is `ROTATING`, `fixUp`; set `clicked` exactly
when the state never left `INDETERMINATE`; return to `INACTIVE`. -/
def onMouseUp (c : Controls) : Controls :=
  let c1 := if c.state = State.ROTATING then fixUp c else c
  { c1 with clicked := decide (c1.state = State.INDETERMINATE),
            state := State.INACTIVE }

/-- The world-space distance the dolly moves for the latest pointer delta:
`speed * deltaY` with `speed = zoomSpeed * pxToWorld`,
`pxToWorld = distForFullDrag / clientHeight`,
`distForFullDrag = min (maxDistance - minDistance) (2 * distToTarget)`,
`deltaY = prev.y - y`. -/
def dollyDelta (c : Controls) (y : ℝ) : ℝ :=
  c.zoomSpeed * (min (c.maxDistance - c.minDistance) (2 * distToTarget c) / c.clientHeight)
    * (c.prev.y - y)

/-- The guard of `dolly`: the move is applied only when the resulting
distance `distToTarget + delta` stays within `[minDistance, maxDistance]`. -/
def dollyGuard (c : Controls) (y : ℝ) : Prop :=
  c.minDistance ≤ distToTarget c + dollyDelta c y ∧
  distToTarget c + dollyDelta c y ≤ c.maxDistance

instance (c : Controls) (y : ℝ) : Decidable (dollyGuard c y) := by
  unfold dollyGuard
  exact instDecidableAnd

/-- The applied branch of `dolly`: move the position along `toTarget` by
`delta` (dividing by `distToTarget`), `update`, advance `prev`. -/
def dollyApply (c : Controls) (x y : ℝ) : Controls :=
  let toTarget := c.target.sub c.position
  let deltaToTarget := toTarget.smul (dollyDelta c y / distToTarget c)
  let c1 := update { c with position := c.position.sub deltaToTarget }
  { c1 with prev := ⟨x, y⟩ }

/-- `dolly`: promote `INDETERMINATE` to `DOLLYING` once the cursor has
travelled more than `ClickThreshold`; while `DOLLYING`, apply the move only
when the distance guard holds. -/
def dolly (c0 : Controls) (x y : ℝ) : Controls :=
  let c := if c0.state = State.INDETERMINATE ∧
              ClickThreshold < Vec2.manhattanDistanceTo ⟨x, y⟩ c0.prev
           then { c0 with state := State.DOLLYING } else c0
  if c.state = State.DOLLYING then
    if dollyGuard c y then dollyApply c x y else c
  else c

/-- The fallible variant of `dollyApply`: the source divides
`delta / distToTarget` with no guard, so the division is modelled as
failing when `distToTarget = 0`. -/
def dollyCheckedApply (c : Controls) (x y : ℝ) : Option Controls :=
  if distToTarget c = 0 then none else some (dollyApply c x y)

/-- `dolly` with the unguarded division `delta / distToTarget` made
fallible; identical control flow otherwise. -/
def dollyChecked (c0 : Controls) (x y : ℝ) : Option Controls :=
  let c := if c0.state = State.INDETERMINATE ∧
              ClickThreshold < Vec2.manhattanDistanceTo ⟨x, y⟩ c0.prev
           then { c0 with state := State.DOLLYING } else c0
  if c.state = State.DOLLYING then
    if dollyGuard c y then dollyCheckedApply c x y else some c
  else some c

/-- `onMouseWheel`: enter `DOLLYING`, reset `prev` to the origin and dolly
with `(0, -deltaY)`. -/
def onMouseWheel (c : Controls) (deltaY : ℝ) : Controls :=
  dolly { c with state := State.DOLLYING, prev := ⟨0, 0⟩ } 0 (-deltaY)

/-- The capture step of `rotate`, run once at the promotion instant: store
the radius and the basis matrix (columns `xAxis, yAxis, zAxis` and
translation to the target). -/
def rotateCapture (c : Controls) : Controls :=
  let zAxis0 := c.position.sub c.target
  let radius := zAxis0.length
  let zAxis := zAxis0.divideScalar radius
  let yAxis := c.up
  let xAxis := (yAxis.cross zAxis).normalize
  { c with state := State.ROTATING, radius := radius,
           basisX := xAxis, basisY := yAxis, basisZ := zAxis,
           basisT := c.target }

/-- The azimuth `phi = -delta.x * (pi / clientWidth)` with
`delta.x = (x - prev.x) * (2 * rotateSpeed)`. -/
def rotatePhi (c : Controls) (x : ℝ) : ℝ :=
  -((x - c.prev.x) * (2 * c.rotateSpeed)) * (Real.pi / c.clientWidth)

/-- `eps = 0.01`, the pole-avoidance bound on the inclination. -/
def rotateEps : ℝ := 0.01

/-- The inclination actually used by `rotate`:
`theta = -delta.y * (pi / clientHeight) + pi / 2`, then clamped into
`[eps, pi - eps]` by `max` followed by `min`. -/
def rotateTheta (c : Controls) (y : ℝ) : ℝ :=
  let theta := -((y - c.prev.y) * (2 * c.rotateSpeed)) * (Real.pi / c.clientHeight)
      + Real.pi / 2
  min (max theta rotateEps) (Real.pi - rotateEps)

/-- The camera position in the captured frame's local coordinates:
`pos.x = radius * sin theta * sin phi`, `pos.y = radius * cos theta`,
`pos.z = radius * sin theta * cos phi`. -/
def rotateLocalPos (c : Controls) (x y : ℝ) : Vec3 :=
  ⟨c.radius * Real.sin (rotateTheta c y) * Real.sin (rotatePhi c x),
   c.radius * Real.cos (rotateTheta c y),
   c.radius * Real.sin (rotateTheta c y) * Real.cos (rotatePhi c x)⟩

/-- `applyMatrix4` with the captured basis matrix: the basis columns times
the local coordinates, translated by the captured target. -/
def applyBasis (c : Controls) (p : Vec3) : Vec3 :=
  ((c.basisX.smul p.x).add ((c.basisY.smul p.y).add (c.basisZ.smul p.z))).add c.basisT

/-- `rotate`: promote `INDETERMINATE` to `ROTATING` (capturing the frame)
once the cursor has travelled more than `ClickThreshold`; while `ROTATING`,
place the camera by spherical coordinates in the captured frame and
`update`.  `prev` is never advanced by `rotate`. -/
def rotate (c0 : Controls) (x y : ℝ) : Controls :=
  let c := if c0.state = State.INDETERMINATE ∧
              ClickThreshold < Vec2.manhattanDistanceTo ⟨x, y⟩ c0.prev
           then rotateCapture c0 else c0
  if c.state = State.ROTATING then
    update { c with position := applyBasis c (rotateLocalPos c x y) }
  else c

/-- `pan`: promote `INDETERMINATE` to `PANNING` once the cursor has
travelled more than `ClickThreshold`; while `PANNING`, translate camera and
target in the plane orthogonal to the live view vector and `update`. -/
def pan (c0 : Controls) (x y : ℝ) : Controls :=
  let c := if c0.state = State.INDETERMINATE ∧
              ClickThreshold < Vec2.manhattanDistanceTo ⟨x, y⟩ c0.prev
           then { c0 with state := State.PANNING } else c0
  if c.state = State.PANNING then
    let zAxis := (c.target.sub c.position).divideScalar (distToTarget c)
    let yAxis := c.up
    let xAxis := (yAxis.cross zAxis).normalize
    let halfHeightWorld := Real.tan ((c.fov / 2) * (Real.pi / 360)) * distToTarget c
    let pxToWorld := halfHeightWorld / (c.clientHeight / 2)
    let deltaX := xAxis.smul ((x - c.prev.x) * pxToWorld)
    let deltaY := yAxis.smul ((y - c.prev.y) * pxToWorld)
    let position := (c.position.add deltaX).add deltaY
    let toTarget := zAxis.smul (distToTarget c)
    let target := position.add toTarget
    let c1 := update { c with position := position, target := target }
    { c1 with prev := ⟨x, y⟩ }
  else c

/-- A pointer move event: position, held buttons bitmask, modifier keys. -/
structure MoveEvent where
  x : ℝ
  y : ℝ
  buttons : ℕ
  shiftKey : Bool
  altKey : Bool
  ctrlKey : Bool
  metaKey : Bool

/-- `eventHasPanModifier`. -/
def eventHasPanModifier (c : Controls) (e : MoveEvent) : Bool :=
  (e.shiftKey && c.usePanModShift) || (e.altKey && c.usePanModAlt) ||
  (e.ctrlKey && c.usePanModCtrl) || (e.metaKey && c.usePanModMeta)

/-- `onMouseMove`: dispatch on the button bitmask; primary button rotates
(or pans with a pan modifier), secondary pans, tertiary dollies. -/
def onMouseMove (c : Controls) (e : MoveEvent) : Controls :=
  if e.buttons = 1 then
    if eventHasPanModifier c e then pan c e.x e.y else rotate c e.x e.y
  else if e.buttons = 2 then pan c e.x e.y
  else if e.buttons = 4 then dolly c e.x e.y
  else c

/-- `onKeyDown`: the four arrow keys pan with a fixed magnitude after
entering `PANNING` and resetting `prev` to the origin. -/
def onKeyDown (c : Controls) (keyCode : ℕ) : Controls :=
  if keyCode = c.keysUP then
    pan { c with state := State.PANNING, prev := ⟨0, 0⟩ } 0 c.keyPanSpeed
  else if keyCode = c.keysDOWN then
    pan { c with state := State.PANNING, prev := ⟨0, 0⟩ } 0 (-c.keyPanSpeed)
  else if keyCode = c.keysLEFT then
    pan { c with state := State.PANNING, prev := ⟨0, 0⟩ } c.keyPanSpeed 0
  else if keyCode = c.keysRIGHT then
    pan { c with state := State.PANNING, prev := ⟨0, 0⟩ } (-c.keyPanSpeed) 0
  else c

/-- A sequence of move events handled between a press and a release. -/
def processMoves (c : Controls) (moves : List MoveEvent) : Controls :=
  moves.foldl onMouseMove c

/-- One full press-to-release gesture. -/
def gesture (c : Controls) (px py : ℝ) (moves : List MoveEvent) : Controls :=
  onMouseUp (processMoves (onMouseDown c px py) moves)

/-- A sequence of dolly steps (drag moves while `DOLLYING`). -/
def dollySteps (c : Controls) (steps : List (ℝ × ℝ)) : Controls :=
  steps.foldl (fun s p => dolly s p.1 p.2) c

/-- The six equations stating that the captured basis frame is orthonormal. -/
def OrthonormalBasis (c : Controls) : Prop :=
  c.basisX.dot c.basisX = 1 ∧ c.basisY.dot c.basisY = 1 ∧ c.basisZ.dot c.basisZ = 1 ∧
  c.basisX.dot c.basisY = 0 ∧ c.basisX.dot c.basisZ = 0 ∧ c.basisY.dot c.basisZ = 0

/-- A reference controller state used for concrete evaluations: camera at
`(0,0,5)` looking at the origin with up `(0,1,0)`, a 300x300 viewport,
and the source's default configuration except `maxDistance = 10`. -/
def baseC : Controls where
  position := ⟨0, 0, 5⟩
  up := ⟨0, 1, 0⟩
  fov := 50
  target := ⟨0, 0, 0⟩
  state := State.INACTIVE
  prev := ⟨0, 0⟩
  clicked := false
  radius := 0
  basisX := ⟨1, 0, 0⟩
  basisY := ⟨0, 1, 0⟩
  basisZ := ⟨0, 0, 1⟩
  basisT := ⟨0, 0, 0⟩
  minDistance := 0
  maxDistance := 10
  rotateSpeed := 1
  zoomSpeed := 1
  keyPanSpeed := 7
  clientWidth := 300
  clientHeight := 300
  usePanModAlt := true
  usePanModShift := false
  usePanModCtrl := false
  usePanModMeta := false
  keysLEFT := 37
  keysUP := 38
  keysRIGHT := 39
  keysDOWN := 40
  target0 := ⟨0, 0, 0⟩
  position0 := ⟨0, 0, 5⟩
  fixUpCount := 0
  changedCount := 0

/-- `baseC` already in the `DOLLYING` state. -/
def dollyC : Controls :=
  { baseC with state := State.DOLLYING }

/-- `baseC` already in the `ROTATING` state with the captured identity
frame and radius 5. -/
def rotC : Controls :=
  { baseC with state := State.ROTATING, radius := 5 }

/-- `baseC` with tight distance bounds `[4, 6]`, used to exhibit a dolly
gesture whose every step is rejected. -/
def tightC : Controls :=
  { baseC with minDistance := 4, maxDistance := 6 }

/-- `baseC` in `DOLLYING` with the camera exactly at the target. -/
def zeroDistC : Controls :=
  { baseC with position := ⟨0, 0, 0⟩, state := State.DOLLYING }

/-- The state entered by `onMouseWheel` from `baseC` before it dollies. -/
def wheelC : Controls :=
  { baseC with state := State.DOLLYING, prev := ⟨0, 0⟩ }

/-- `baseC` already in the `PANNING` state. -/
def panC : Controls :=
  { baseC with state := State.PANNING }

/-- A middle-button move to `(0, 1000)`: far over the click threshold. -/
def bigDollyMove : MoveEvent :=
  ⟨0, 1000, 4, false, false, false, false⟩

/-- A primary-button move to `(1, 1)`: within the click threshold of a
press at the origin. -/
def smallMove : MoveEvent :=
  ⟨1, 1, 1, false, false, false, false⟩

end

/-! ## Vector algebra lemmas -/

theorem Vec3.dot_self_nonneg (v : Vec3) : 0 ≤ v.dot v := by
  simp only [Vec3.dot]
  nlinarith [mul_self_nonneg v.x, mul_self_nonneg v.y, mul_self_nonneg v.z]

theorem Vec3.length_nonneg (v : Vec3) : 0 ≤ v.length :=
  Real.sqrt_nonneg _

theorem Vec3.length_mul_self (v : Vec3) : v.length * v.length = v.dot v :=
  Real.mul_self_sqrt (Vec3.dot_self_nonneg v)

theorem Vec3.eq_zero_of_length_eq_zero {v : Vec3} (h : v.length = 0) : v = ⟨0, 0, 0⟩ := by
  have hd : v.x * v.x + v.y * v.y + v.z * v.z ≤ 0 := by
    have h2 := Real.sqrt_eq_zero'.mp h
    simpa [Vec3.dot] using h2
  have hx : v.x = 0 := by
    have : v.x * v.x = 0 :=
      le_antisymm (by nlinarith [mul_self_nonneg v.y, mul_self_nonneg v.z]) (mul_self_nonneg v.x)
    exact mul_self_eq_zero.mp this
  have hy : v.y = 0 := by
    have : v.y * v.y = 0 :=
      le_antisymm (by nlinarith [mul_self_nonneg v.x, mul_self_nonneg v.z]) (mul_self_nonneg v.y)
    exact mul_self_eq_zero.mp this
  have hz : v.z = 0 := by
    have : v.z * v.z = 0 :=
      le_antisymm (by nlinarith [mul_self_nonneg v.x, mul_self_nonneg v.y]) (mul_self_nonneg v.z)
    exact mul_self_eq_zero.mp this
  ext <;> simp [hx, hy, hz]

theorem Vec3.length_ne_zero_of_ne {v : Vec3} (h : v ≠ ⟨0, 0, 0⟩) : v.length ≠ 0 :=
  fun h0 => h (Vec3.eq_zero_of_length_eq_zero h0)

theorem Vec3.dot_comm (a b : Vec3) : a.dot b = b.dot a := by
  simp only [Vec3.dot]
  ring

theorem Vec3.divideScalar_dot (v : Vec3) (s : ℝ) (w : Vec3) :
    (v.divideScalar s).dot w = v.dot w / s := by
  simp only [Vec3.divideScalar, Vec3.dot, div_mul_eq_mul_div, div_add_div_same]

theorem Vec3.smul_dot (a : Vec3) (s : ℝ) (w : Vec3) :
    (a.smul s).dot w = s * a.dot w := by
  simp only [Vec3.smul, Vec3.dot]
  ring

theorem Vec3.dot_smul (w a : Vec3) (s : ℝ) :
    w.dot (a.smul s) = s * w.dot a := by
  simp only [Vec3.smul, Vec3.dot]
  ring

theorem Vec3.add_dot (a b w : Vec3) :
    (a.add b).dot w = a.dot w + b.dot w := by
  simp only [Vec3.add, Vec3.dot]
  ring

theorem Vec3.dot_add (w a b : Vec3) :
    w.dot (a.add b) = w.dot a + w.dot b := by
  simp only [Vec3.add, Vec3.dot]
  ring

theorem Vec3.cross_dot_left (a b : Vec3) : (a.cross b).dot a = 0 := by
  simp only [Vec3.cross, Vec3.dot]
  ring

theorem Vec3.cross_dot_right (a b : Vec3) : (a.cross b).dot b = 0 := by
  simp only [Vec3.cross, Vec3.dot]
  ring

theorem Vec3.cross_dot_cross (a b : Vec3) :
    (a.cross b).dot (a.cross b) = a.dot a * b.dot b - a.dot b * a.dot b := by
  simp only [Vec3.cross, Vec3.dot]
  ring

theorem Vec3.cross_of_cross_right (v s : Vec3) :
    v.cross (s.cross v) = (s.smul (v.dot v)).sub (v.smul (v.dot s)) := by
  ext <;> (simp only [Vec3.cross, Vec3.smul, Vec3.sub, Vec3.dot]; ring)

theorem Vec3.length_smul (v : Vec3) (s : ℝ) : (v.smul s).length = |s| * v.length := by
  unfold Vec3.length
  rw [show (v.smul s).dot (v.smul s) = s ^ 2 * v.dot v by
        simp only [Vec3.smul, Vec3.dot]; ring,
      Real.sqrt_mul (sq_nonneg s), Real.sqrt_sq_eq_abs]

theorem Vec3.length_divideScalar (v : Vec3) (s : ℝ) :
    (v.divideScalar s).length = v.length / |s| := by
  unfold Vec3.length
  rw [show (v.divideScalar s).dot (v.divideScalar s) = v.dot v / (s * s) by
        simp only [Vec3.divideScalar, Vec3.dot, div_mul_div_comm, div_add_div_same],
      Real.sqrt_div (Vec3.dot_self_nonneg v), Real.sqrt_mul_self_eq_abs]

theorem Vec3.divideScalar_one (v : Vec3) : v.divideScalar 1 = v := by
  ext <;> simp [Vec3.divideScalar]

theorem Vec3.normalize_length {v : Vec3} (h : v.length ≠ 0) : v.normalize.length = 1 := by
  unfold Vec3.normalize
  rw [if_neg h, Vec3.length_divideScalar, abs_of_nonneg (Vec3.length_nonneg v), div_self h]

theorem Vec3.normalize_of_length_one {v : Vec3} (h : v.length = 1) : v.normalize = v := by
  unfold Vec3.normalize
  rw [h, if_neg one_ne_zero, Vec3.divideScalar_one]

theorem Vec3.zero_cross (v : Vec3) : (⟨0, 0, 0⟩ : Vec3).cross v = ⟨0, 0, 0⟩ := by
  ext <;> simp [Vec3.cross]

theorem Vec3.cross_zero (v : Vec3) : v.cross ⟨0, 0, 0⟩ = ⟨0, 0, 0⟩ := by
  ext <;> simp [Vec3.cross]

theorem Vec3.length_zero : (⟨0, 0, 0⟩ : Vec3).length = 0 := by
  unfold Vec3.length
  simp [Vec3.dot]

theorem Vec3.normalize_zero : (⟨0, 0, 0⟩ : Vec3).normalize = ⟨0, 0, 0⟩ := by
  unfold Vec3.normalize
  rw [if_pos Vec3.length_zero, Vec3.divideScalar_one]

theorem Vec3.smul_one (v : Vec3) : v.smul 1 = v := by
  ext <;> simp [Vec3.smul]

theorem Vec3.smul_zero (v : Vec3) : v.smul 0 = ⟨0, 0, 0⟩ := by
  ext <;> simp [Vec3.smul]

theorem Vec3.sub_zero_vec (v : Vec3) : v.sub ⟨0, 0, 0⟩ = v := by
  ext <;> simp [Vec3.sub]

theorem Vec3.normalize_dot (v w : Vec3) :
    v.normalize.dot w = v.dot w / (if v.length = 0 then 1 else v.length) := by
  unfold Vec3.normalize
  rw [Vec3.divideScalar_dot]

theorem Vec3.normalize_cross_dot (a v : Vec3) : ((a.cross v).normalize).dot v = 0 := by
  unfold Vec3.normalize
  rw [Vec3.divideScalar_dot, Vec3.cross_dot_right, zero_div]

theorem Vec3.normalize_cross_dot_left (a b : Vec3) : ((a.cross b).normalize).dot a = 0 := by
  unfold Vec3.normalize
  rw [Vec3.divideScalar_dot, Vec3.cross_dot_left, zero_div]

/-! ## Record bookkeeping lemmas -/

@[simp]
theorem fixUp_position (c : Controls) : (fixUp c).position = c.position := rfl

@[simp]
theorem fixUp_target (c : Controls) : (fixUp c).target = c.target := rfl

@[simp]
theorem fixUp_state (c : Controls) : (fixUp c).state = c.state := rfl

@[simp]
theorem fixUp_prev (c : Controls) : (fixUp c).prev = c.prev := rfl

@[simp]
theorem fixUp_up (c : Controls) : (fixUp c).up = fixUpNewUp c.position c.target c.up := rfl

@[simp]
theorem fixUp_fixUpCount (c : Controls) : (fixUp c).fixUpCount = c.fixUpCount + 1 := rfl

@[simp]
theorem fixUp_changedCount (c : Controls) : (fixUp c).changedCount = c.changedCount := rfl

@[simp]
theorem update_position (c : Controls) : (update c).position = c.position := by
  unfold update
  split <;> rfl

@[simp]
theorem update_target (c : Controls) : (update c).target = c.target := by
  unfold update
  split <;> rfl

@[simp]
theorem update_state (c : Controls) : (update c).state = c.state := by
  unfold update
  split <;> rfl

@[simp]
theorem update_prev (c : Controls) : (update c).prev = c.prev := by
  unfold update
  split <;> rfl

@[simp]
theorem update_clicked (c : Controls) : (update c).clicked = c.clicked := by
  unfold update
  split <;> rfl

@[simp]
theorem update_minDistance (c : Controls) : (update c).minDistance = c.minDistance := by
  unfold update
  split <;> rfl

@[simp]
theorem update_maxDistance (c : Controls) : (update c).maxDistance = c.maxDistance := by
  unfold update
  split <;> rfl

@[simp]
theorem update_zoomSpeed (c : Controls) : (update c).zoomSpeed = c.zoomSpeed := by
  unfold update
  split <;> rfl

@[simp]
theorem update_clientHeight (c : Controls) : (update c).clientHeight = c.clientHeight := by
  unfold update
  split <;> rfl

@[simp]
theorem update_radius (c : Controls) : (update c).radius = c.radius := by
  unfold update
  split <;> rfl

@[simp]
theorem update_basisX (c : Controls) : (update c).basisX = c.basisX := by
  unfold update
  split <;> rfl

@[simp]
theorem update_basisY (c : Controls) : (update c).basisY = c.basisY := by
  unfold update
  split <;> rfl

@[simp]
theorem update_basisZ (c : Controls) : (update c).basisZ = c.basisZ := by
  unfold update
  split <;> rfl

@[simp]
theorem update_basisT (c : Controls) : (update c).basisT = c.basisT := by
  unfold update
  split <;> rfl

@[simp]
theorem update_position0 (c : Controls) : (update c).position0 = c.position0 := by
  unfold update
  split <;> rfl

@[simp]
theorem update_target0 (c : Controls) : (update c).target0 = c.target0 := by
  unfold update
  split <;> rfl

@[simp]
theorem update_changedCount (c : Controls) : (update c).changedCount = c.changedCount + 1 := by
  unfold update
  split <;> rfl

theorem update_up (c : Controls) :
    (update c).up = if c.state = State.ROTATING then c.up
                    else fixUpNewUp c.position c.target c.up := by
  unfold update
  split <;> simp_all

theorem update_fixUpCount (c : Controls) :
    (update c).fixUpCount = if c.state = State.ROTATING then c.fixUpCount
                            else c.fixUpCount + 1 := by
  unfold update
  split <;> simp_all

@[simp]
theorem distToTarget_update (c : Controls) : distToTarget (update c) = distToTarget c := by
  unfold distToTarget
  rw [update_target, update_position]

/-! ## Branch characterizations of the handlers -/

@[simp]
theorem rotateCapture_state (c : Controls) : (rotateCapture c).state = State.ROTATING := rfl

@[simp]
theorem rotateCapture_position (c : Controls) : (rotateCapture c).position = c.position := rfl

@[simp]
theorem rotateCapture_target (c : Controls) : (rotateCapture c).target = c.target := rfl

@[simp]
theorem rotateCapture_up (c : Controls) : (rotateCapture c).up = c.up := rfl

@[simp]
theorem rotateCapture_prev (c : Controls) : (rotateCapture c).prev = c.prev := rfl

@[simp]
theorem rotateCapture_fixUpCount (c : Controls) : (rotateCapture c).fixUpCount = c.fixUpCount := rfl

@[simp]
theorem rotateCapture_changedCount (c : Controls) :
    (rotateCapture c).changedCount = c.changedCount := rfl

@[simp]
theorem dollyApply_state (c : Controls) (x y : ℝ) : (dollyApply c x y).state = c.state := by
  unfold dollyApply
  simp

@[simp]
theorem dollyApply_target (c : Controls) (x y : ℝ) : (dollyApply c x y).target = c.target := by
  unfold dollyApply
  simp

@[simp]
theorem dollyApply_minDistance (c : Controls) (x y : ℝ) :
    (dollyApply c x y).minDistance = c.minDistance := by
  unfold dollyApply
  simp

@[simp]
theorem dollyApply_maxDistance (c : Controls) (x y : ℝ) :
    (dollyApply c x y).maxDistance = c.maxDistance := by
  unfold dollyApply
  simp

@[simp]
theorem dollyApply_zoomSpeed (c : Controls) (x y : ℝ) :
    (dollyApply c x y).zoomSpeed = c.zoomSpeed := by
  unfold dollyApply
  simp

@[simp]
theorem dollyApply_clientHeight (c : Controls) (x y : ℝ) :
    (dollyApply c x y).clientHeight = c.clientHeight := by
  unfold dollyApply
  simp

theorem dollyApply_position (c : Controls) (x y : ℝ) :
    (dollyApply c x y).position
      = c.position.sub ((c.target.sub c.position).smul (dollyDelta c y / distToTarget c)) := by
  unfold dollyApply
  simp

theorem dollyApply_fixUpCount (c : Controls) (x y : ℝ) :
    (dollyApply c x y).fixUpCount
      = if c.state = State.ROTATING then c.fixUpCount else c.fixUpCount + 1 := by
  unfold dollyApply
  rw [show (∀ c1 : Controls, ({ c1 with prev := ⟨x, y⟩ } : Controls).fixUpCount = c1.fixUpCount)
        from fun c1 => rfl, update_fixUpCount]

theorem dolly_eq_of_guard {c : Controls} {y : ℝ} (hs : c.state = State.DOLLYING)
    (hg : dollyGuard c y) (x : ℝ) : dolly c x y = dollyApply c x y := by
  have h1 : ¬(c.state = State.INDETERMINATE ∧
      ClickThreshold < Vec2.manhattanDistanceTo ⟨x, y⟩ c.prev) := by
    rintro ⟨h, -⟩
    rw [hs] at h
    exact absurd h (by decide)
  unfold dolly
  rw [if_neg h1, if_pos hs, if_pos hg]

theorem dolly_eq_of_not_guard {c : Controls} {y : ℝ} (hs : c.state = State.DOLLYING)
    (hg : ¬dollyGuard c y) (x : ℝ) : dolly c x y = c := by
  have h1 : ¬(c.state = State.INDETERMINATE ∧
      ClickThreshold < Vec2.manhattanDistanceTo ⟨x, y⟩ c.prev) := by
    rintro ⟨h, -⟩
    rw [hs] at h
    exact absurd h (by decide)
  unfold dolly
  rw [if_neg h1, if_pos hs, if_neg hg]

theorem dolly_state_of_ne {c : Controls} (h : c.state ≠ State.INDETERMINATE) (x y : ℝ) :
    (dolly c x y).state = c.state := by
  have h1 : ¬(c.state = State.INDETERMINATE ∧
      ClickThreshold < Vec2.manhattanDistanceTo ⟨x, y⟩ c.prev) := fun hc => h hc.1
  unfold dolly
  rw [if_neg h1]
  dsimp only
  split
  · split
    · simp
    · rfl
  · rfl

theorem dolly_state_promote {c : Controls} {x y : ℝ} (hs : c.state = State.INDETERMINATE)
    (hthr : ClickThreshold < Vec2.manhattanDistanceTo ⟨x, y⟩ c.prev) :
    (dolly c x y).state = State.DOLLYING := by
  have hp : c.state = State.INDETERMINATE ∧
      ClickThreshold < Vec2.manhattanDistanceTo ⟨x, y⟩ c.prev := ⟨hs, hthr⟩
  unfold dolly
  rw [if_pos hp]
  dsimp only
  rw [if_pos rfl]
  split
  · simp
  · rfl

theorem rotate_eq_of_rotating {c : Controls} (hs : c.state = State.ROTATING) (x y : ℝ) :
    rotate c x y = update { c with position := applyBasis c (rotateLocalPos c x y) } := by
  have h1 : ¬(c.state = State.INDETERMINATE ∧
      ClickThreshold < Vec2.manhattanDistanceTo ⟨x, y⟩ c.prev) := by
    rintro ⟨h, -⟩
    rw [hs] at h
    exact absurd h (by decide)
  unfold rotate
  rw [if_neg h1, if_pos hs]

theorem rotate_state_of_ne {c : Controls} (h : c.state ≠ State.INDETERMINATE) (x y : ℝ) :
    (rotate c x y).state = c.state := by
  have h1 : ¬(c.state = State.INDETERMINATE ∧
      ClickThreshold < Vec2.manhattanDistanceTo ⟨x, y⟩ c.prev) := fun hc => h hc.1
  unfold rotate
  rw [if_neg h1]
  dsimp only
  split
  · simp
  · rfl

theorem rotate_state_promote {c : Controls} {x y : ℝ} (hs : c.state = State.INDETERMINATE)
    (hthr : ClickThreshold < Vec2.manhattanDistanceTo ⟨x, y⟩ c.prev) :
    (rotate c x y).state = State.ROTATING := by
  have hp : c.state = State.INDETERMINATE ∧
      ClickThreshold < Vec2.manhattanDistanceTo ⟨x, y⟩ c.prev := ⟨hs, hthr⟩
  unfold rotate
  rw [if_pos hp]
  dsimp only
  rw [if_pos (rotateCapture_state c)]
  simp

theorem pan_state_of_ne {c : Controls} (h : c.state ≠ State.INDETERMINATE) (x y : ℝ) :
    (pan c x y).state = c.state := by
  have h1 : ¬(c.state = State.INDETERMINATE ∧
      ClickThreshold < Vec2.manhattanDistanceTo ⟨x, y⟩ c.prev) := fun hc => h hc.1
  unfold pan
  rw [if_neg h1]
  dsimp only
  split
  · simp
  · rfl

theorem pan_state_promote {c : Controls} {x y : ℝ} (hs : c.state = State.INDETERMINATE)
    (hthr : ClickThreshold < Vec2.manhattanDistanceTo ⟨x, y⟩ c.prev) :
    (pan c x y).state = State.PANNING := by
  have hp : c.state = State.INDETERMINATE ∧
      ClickThreshold < Vec2.manhattanDistanceTo ⟨x, y⟩ c.prev := ⟨hs, hthr⟩
  unfold pan
  rw [if_pos hp]
  dsimp only
  rw [if_pos rfl]
  simp

theorem pan_fixUpCount_of_panning {c : Controls} (hs : c.state = State.PANNING) (x y : ℝ) :
    (pan c x y).fixUpCount = c.fixUpCount + 1 := by
  have h1 : ¬(c.state = State.INDETERMINATE ∧
      ClickThreshold < Vec2.manhattanDistanceTo ⟨x, y⟩ c.prev) := by
    rintro ⟨h, -⟩
    rw [hs] at h
    exact absurd h (by decide)
  have h2 : ¬(c.state = State.ROTATING) := by
    rw [hs]
    exact fun h => absurd h (by decide)
  unfold pan
  rw [if_neg h1, if_pos hs]
  rw [show (∀ c1 : Controls, ({ c1 with prev := ⟨x, y⟩ } : Controls).fixUpCount = c1.fixUpCount)
        from fun c1 => rfl, update_fixUpCount]
  rw [if_neg h2]

theorem rotate_fixUpCount (c : Controls) (x y : ℝ) :
    (rotate c x y).fixUpCount = c.fixUpCount := by
  unfold rotate
  dsimp only
  split
  · rw [if_pos (rotateCapture_state _), update_fixUpCount, if_pos (rotateCapture_state _)]
    rfl
  · split
    case isTrue hR => rw [update_fixUpCount, if_pos hR]
    case isFalse => rfl

@[simp]
theorem onMouseUp_state (c : Controls) : (onMouseUp c).state = State.INACTIVE := by
  unfold onMouseUp
  split <;> rfl

theorem onMouseUp_clicked (c : Controls) :
    (onMouseUp c).clicked = decide (c.state = State.INDETERMINATE) := by
  unfold onMouseUp
  split <;> rfl

@[simp]
theorem onMouseUp_position (c : Controls) : (onMouseUp c).position = c.position := by
  unfold onMouseUp
  split <;> rfl

@[simp]
theorem onMouseUp_target (c : Controls) : (onMouseUp c).target = c.target := by
  unfold onMouseUp
  split <;> rfl

@[simp]
theorem onMouseUp_changedCount (c : Controls) : (onMouseUp c).changedCount = c.changedCount := by
  unfold onMouseUp
  split <;> rfl

theorem onMouseUp_up (c : Controls) :
    (onMouseUp c).up = if c.state = State.ROTATING
                       then fixUpNewUp c.position c.target c.up else c.up := by
  unfold onMouseUp
  split <;> simp_all

theorem onMouseUp_fixUpCount (c : Controls) :
    (onMouseUp c).fixUpCount = if c.state = State.ROTATING
                               then c.fixUpCount + 1 else c.fixUpCount := by
  unfold onMouseUp
  split <;> simp_all

/-! ## Dolly distance lemmas -/

theorem distToTarget_nonneg (c : Controls) : 0 ≤ distToTarget c :=
  Vec3.length_nonneg _

theorem distToTarget_eq (c : Controls) : distToTarget c = (c.target.sub c.position).length :=
  rfl

theorem distToTarget_dollyApply (c : Controls) (x y : ℝ) (hd : 0 < distToTarget c)
    (hnn : 0 ≤ distToTarget c + dollyDelta c y) :
    distToTarget (dollyApply c x y) = distToTarget c + dollyDelta c y := by
  have hdne : distToTarget c ≠ 0 := ne_of_gt hd
  have htv : c.target.sub (dollyApply c x y).position
      = (c.target.sub c.position).smul (1 + dollyDelta c y / distToTarget c) := by
    rw [dollyApply_position]
    ext <;> (simp only [Vec3.sub, Vec3.smul]; ring)
  rw [distToTarget_eq (dollyApply c x y), dollyApply_target, htv, Vec3.length_smul,
      ← distToTarget_eq c,
      show 1 + dollyDelta c y / distToTarget c
          = (distToTarget c + dollyDelta c y) / distToTarget c by
        rw [add_div, div_self hdne],
      abs_div, abs_of_nonneg hnn, abs_of_pos hd, div_mul_cancel₀ _ hdne]

theorem distToTarget_dollyApply_zero (c : Controls) (x y : ℝ) (hd : distToTarget c = 0) :
    distToTarget (dollyApply c x y) = 0 := by
  have hp : (dollyApply c x y).position = c.position := by
    rw [dollyApply_position, hd, div_zero, Vec3.smul_zero, Vec3.sub_zero_vec]
  unfold distToTarget
  rw [dollyApply_target, hp]
  exact hd

theorem dolly_minDistance (c : Controls) (x y : ℝ) :
    (dolly c x y).minDistance = c.minDistance := by
  unfold dolly
  dsimp only
  repeat' split
  all_goals simp [dollyApply_minDistance]

theorem dolly_maxDistance (c : Controls) (x y : ℝ) :
    (dolly c x y).maxDistance = c.maxDistance := by
  unfold dolly
  dsimp only
  repeat' split
  all_goals simp [dollyApply_maxDistance]

theorem dolly_invariant_step {c : Controls} (x y : ℝ)
    (h0 : 0 ≤ c.minDistance) (hs : c.state = State.DOLLYING)
    (hlo : c.minDistance ≤ distToTarget c) (hhi : distToTarget c ≤ c.maxDistance) :
    (dolly c x y).state = State.DOLLYING ∧
    c.minDistance ≤ distToTarget (dolly c x y) ∧
    distToTarget (dolly c x y) ≤ c.maxDistance := by
  have hne : c.state ≠ State.INDETERMINATE := by
    rw [hs]
    exact fun h => absurd h (by decide)
  refine ⟨by rw [dolly_state_of_ne hne, hs], ?_⟩
  by_cases hg : dollyGuard c y
  · rw [dolly_eq_of_guard hs hg]
    by_cases hd : distToTarget c = 0
    · rw [distToTarget_dollyApply_zero _ _ _ hd]
      rw [hd] at hlo hhi
      exact ⟨hlo, hhi⟩
    · have hdpos : 0 < distToTarget c :=
        lt_of_le_of_ne (distToTarget_nonneg c) (Ne.symm hd)
      rw [distToTarget_dollyApply _ _ _ hdpos (le_trans h0 hg.1)]
      exact hg
  · rw [dolly_eq_of_not_guard hs hg]
    exact ⟨hlo, hhi⟩

theorem dolly_invariant_steps (steps : List (ℝ × ℝ)) :
    ∀ c : Controls, 0 ≤ c.minDistance → c.state = State.DOLLYING →
    c.minDistance ≤ distToTarget c → distToTarget c ≤ c.maxDistance →
    (dollySteps c steps).minDistance = c.minDistance ∧
    (dollySteps c steps).maxDistance = c.maxDistance ∧
    (dollySteps c steps).minDistance ≤ distToTarget (dollySteps c steps) ∧
    distToTarget (dollySteps c steps) ≤ (dollySteps c steps).maxDistance := by
  induction steps with
  | nil => exact fun c _ _ hlo hhi => ⟨rfl, rfl, hlo, hhi⟩
  | cons p rest ih =>
    intro c h0 hs hlo hhi
    obtain ⟨hs', hlo', hhi'⟩ := dolly_invariant_step p.1 p.2 h0 hs hlo hhi
    have hmin := dolly_minDistance c p.1 p.2
    have hmax := dolly_maxDistance c p.1 p.2
    have hrec := ih (dolly c p.1 p.2) (hmin ▸ h0) hs' (hmin ▸ hlo') (hmax ▸ hhi')
    have hsteps : dollySteps c (p :: rest) = dollySteps (dolly c p.1 p.2) rest := rfl
    rw [hsteps]
    exact ⟨hrec.1.trans hmin, hrec.2.1.trans hmax, hrec.2.2⟩

/-! ## Concrete evaluations on the reference states -/

theorem sqrt_of_sq {a b : ℝ} (hb : 0 ≤ b) (h : b * b = a) : Real.sqrt a = b := by
  rw [← h]
  exact Real.sqrt_mul_self hb

theorem distToTarget_baseC : distToTarget baseC = 5 := by
  have h : baseC.target.sub baseC.position = ⟨0, 0, -5⟩ := by
    ext <;> (simp [baseC, Vec3.sub])
  rw [distToTarget_eq, h]
  unfold Vec3.length
  rw [show Vec3.dot ⟨0, 0, -5⟩ ⟨0, 0, -5⟩ = 25 by simp [Vec3.dot]; norm_num]
  exact sqrt_of_sq (by norm_num) (by norm_num)

theorem distToTarget_dollyC : distToTarget dollyC = 5 :=
  distToTarget_baseC

theorem distToTarget_rotC : distToTarget rotC = 5 :=
  distToTarget_baseC

theorem distToTarget_tightC : distToTarget tightC = 5 :=
  distToTarget_baseC

theorem distToTarget_wheelC : distToTarget wheelC = 5 :=
  distToTarget_baseC

theorem dollyDelta_dollyC : dollyDelta dollyC 100 = -10 / 3 := by
  unfold dollyDelta
  rw [distToTarget_dollyC]
  show (1 : ℝ) * (min ((10 : ℝ) - 0) (2 * 5) / 300) * (0 - 100) = -10 / 3
  norm_num [min_def]

theorem dollyGuard_dollyC : dollyGuard dollyC 100 := by
  unfold dollyGuard
  rw [distToTarget_dollyC, dollyDelta_dollyC]
  show (0 : ℝ) ≤ 5 + -10 / 3 ∧ (5 : ℝ) + -10 / 3 ≤ 10
  norm_num

theorem dollyDelta_wheelC : dollyDelta wheelC (-30) = 1 := by
  unfold dollyDelta
  rw [distToTarget_wheelC]
  show (1 : ℝ) * (min ((10 : ℝ) - 0) (2 * 5) / 300) * (0 - -30) = 1
  norm_num [min_def]

theorem dollyGuard_wheelC : dollyGuard wheelC (-30) := by
  unfold dollyGuard
  rw [distToTarget_wheelC, dollyDelta_wheelC]
  show (0 : ℝ) ≤ 5 + 1 ∧ (5 : ℝ) + 1 ≤ 10
  norm_num

theorem onMouseWheel_baseC_eq : onMouseWheel baseC 30 = dollyApply wheelC 0 (-30) := by
  unfold onMouseWheel
  exact dolly_eq_of_guard rfl dollyGuard_wheelC 0

theorem distToTarget_onMouseWheel_baseC : distToTarget (onMouseWheel baseC 30) = 6 := by
  rw [onMouseWheel_baseC_eq,
      distToTarget_dollyApply wheelC 0 (-30) (by rw [distToTarget_wheelC]; norm_num)
        (by rw [distToTarget_wheelC, dollyDelta_wheelC]; norm_num),
      distToTarget_wheelC, dollyDelta_wheelC]
  norm_num

theorem distToTarget_zeroDistC : distToTarget zeroDistC = 0 := by
  have h : zeroDistC.target.sub zeroDistC.position = ⟨0, 0, 0⟩ := by
    ext <;> (simp [zeroDistC, baseC, Vec3.sub])
  rw [distToTarget_eq, h, Vec3.length_zero]

theorem dollyDelta_zeroDistC : dollyDelta zeroDistC 0 = 0 := by
  unfold dollyDelta
  rw [distToTarget_zeroDistC]
  show (1 : ℝ) * (min ((10 : ℝ) - 0) (2 * 0) / 300) * (0 - 0) = 0
  norm_num

theorem dollyGuard_zeroDistC : dollyGuard zeroDistC 0 := by
  unfold dollyGuard
  rw [distToTarget_zeroDistC, dollyDelta_zeroDistC]
  show (0 : ℝ) ≤ 0 + 0 ∧ (0 : ℝ) + 0 ≤ 10
  norm_num

/-! ## The checked dolly agrees with the source when the distance is positive -/

@[simp]
theorem distToTarget_mk_state (c : Controls) (s : State) :
    distToTarget { c with state := s } = distToTarget c := rfl

theorem dollyChecked_eq_some (c : Controls) (x y : ℝ) (hd : 0 < distToTarget c) :
    dollyChecked c x y = some (dolly c x y) := by
  have hne : distToTarget c ≠ 0 := ne_of_gt hd
  unfold dollyChecked dolly dollyCheckedApply
  dsimp only
  by_cases hP : c.state = State.INDETERMINATE ∧
      ClickThreshold < Vec2.manhattanDistanceTo ⟨x, y⟩ c.prev
  · by_cases hg : dollyGuard { c with state := State.DOLLYING } y
    · simp [hP, hg, hne]
    · simp [hP, hg]
  · by_cases hs : c.state = State.DOLLYING
    · by_cases hg : dollyGuard c y
      · simp [hP, hs, hg, hne]
      · simp [hP, hs, hg]
    · simp [hP, hs]

/-! ## Claim theorems -/

/-- Claim C1: immediately after a rotate gesture ends (a release received
while the state is `ROTATING`), the camera's up vector is exactly orthogonal
to the view vector: `dot up (normalize (target - position)) = 0` in exact
arithmetic, because `fixUp` is invoked once at release. -/
theorem rotate_release_up_orthogonal (c : Controls) (hs : c.state = State.ROTATING) :
    Vec3.dot (onMouseUp c).up
      (((onMouseUp c).target.sub (onMouseUp c).position).normalize) = 0 := by
  rw [onMouseUp_target, onMouseUp_position, onMouseUp_up, if_pos hs]
  show ((((c.target.sub c.position).normalize.cross c.up).normalize.cross
      ((c.target.sub c.position).normalize)).normalize).dot
      ((c.target.sub c.position).normalize) = 0
  exact Vec3.normalize_cross_dot _ _

/-- Claim C1 witness: a concrete release from the `ROTATING` state. -/
theorem rotate_release_up_orthogonal_witness :
    rotC.state = State.ROTATING ∧
    Vec3.dot (onMouseUp rotC).up
      (((onMouseUp rotC).target.sub (onMouseUp rotC).position).normalize) = 0 :=
  ⟨rfl, rotate_release_up_orthogonal rotC rfl⟩

/-- Claim C2: a dolly step from the `DOLLYING` state is applied only when
the resulting distance-to-target lies within `[minDistance, maxDistance]`
(first two conjuncts: guard fails gives a full no-op, guard holds gives a
distance within the bounds), and consequently every sequence of dolly steps
keeps the distance within the bounds when it starts there. -/
theorem dolly_distance_bounds :
    (∀ (c : Controls) (x y : ℝ), c.state = State.DOLLYING → 0 ≤ c.minDistance →
      0 < distToTarget c →
      (¬dollyGuard c y → dolly c x y = c) ∧
      (dollyGuard c y →
        c.minDistance ≤ distToTarget (dolly c x y) ∧
        distToTarget (dolly c x y) ≤ c.maxDistance)) ∧
    (∀ (c : Controls) (steps : List (ℝ × ℝ)), c.state = State.DOLLYING →
      0 ≤ c.minDistance → c.minDistance ≤ distToTarget c →
      distToTarget c ≤ c.maxDistance →
      c.minDistance ≤ distToTarget (dollySteps c steps) ∧
      distToTarget (dollySteps c steps) ≤ c.maxDistance) := by
  constructor
  · intro c x y hs h0 hd
    constructor
    · exact fun hg => dolly_eq_of_not_guard hs hg x
    · intro hg
      rw [dolly_eq_of_guard hs hg, distToTarget_dollyApply _ _ _ hd (le_trans h0 hg.1)]
      exact hg
  · intro c steps hs h0 hlo hhi
    obtain ⟨hmin, hmax, hlo', hhi'⟩ := dolly_invariant_steps steps c h0 hs hlo hhi
    exact ⟨hmin ▸ hlo', hmax ▸ hhi'⟩

/-- Claim C2 witness: a concrete dolly step sequence from distance 5 with
bounds `[0, 10]` stays within the bounds. -/
theorem dolly_distance_bounds_witness :
    dollyC.state = State.DOLLYING ∧ (0 : ℝ) ≤ dollyC.minDistance ∧
    dollyC.minDistance ≤ distToTarget dollyC ∧ distToTarget dollyC ≤ dollyC.maxDistance ∧
    dollyC.minDistance ≤ distToTarget (dollySteps dollyC [(0, 100)]) ∧
    distToTarget (dollySteps dollyC [(0, 100)]) ≤ dollyC.maxDistance := by
  have h0 : (0 : ℝ) ≤ dollyC.minDistance := by norm_num [dollyC, baseC]
  have hlo : dollyC.minDistance ≤ distToTarget dollyC := by
    rw [distToTarget_dollyC]
    norm_num [dollyC, baseC]
  have hhi : distToTarget dollyC ≤ dollyC.maxDistance := by
    rw [distToTarget_dollyC]
    norm_num [dollyC, baseC]
  obtain ⟨h1, h2⟩ := dolly_distance_bounds.2 dollyC [(0, 100)] rfl h0 hlo hhi
  exact ⟨rfl, h0, hlo, hhi, h1, h2⟩

/-- Claim C10: the dolly position update divides by `distToTarget` with no
guard; when the distance is positive the checked variant never fails and
agrees with the source, while a state with the camera at the target reaches
the division with a vanishing divisor. -/
theorem dolly_division_needs_positive_distance :
    (∀ (c : Controls) (x y : ℝ), 0 < distToTarget c →
      dollyChecked c x y = some (dolly c x y)) ∧
    distToTarget zeroDistC = 0 ∧ dollyChecked zeroDistC 0 0 = none := by
  refine ⟨dollyChecked_eq_some, distToTarget_zeroDistC, ?_⟩
  unfold dollyChecked dollyCheckedApply
  dsimp only
  have hP : ¬(zeroDistC.state = State.INDETERMINATE ∧
      ClickThreshold < Vec2.manhattanDistanceTo ⟨0, 0⟩ zeroDistC.prev) := by
    rintro ⟨h, -⟩
    exact absurd h (by decide)
  rw [if_neg hP, if_pos (show zeroDistC.state = State.DOLLYING from rfl),
      if_pos dollyGuard_zeroDistC, if_pos distToTarget_zeroDistC]

/-- Claim C10 witness: from a concrete `DOLLYING` state at distance 5, the
checked dolly succeeds and agrees with the source's dolly. -/
theorem dolly_division_needs_positive_distance_witness :
    0 < distToTarget dollyC ∧ dollyChecked dollyC 0 100 = some (dolly dollyC 0 100) := by
  have hd : 0 < distToTarget dollyC := by
    rw [distToTarget_dollyC]
    norm_num
  exact ⟨hd, dolly_division_needs_positive_distance.1 dollyC 0 100 hd⟩

/-- Claim C4 counterexample: `fixUp` IS invoked while handling a move step
of an active dolly gesture (`update` calls it whenever the state is not
`ROTATING`), contradicting the claim that it runs only at gesture end. -/
theorem fixUp_runs_during_dolly_move :
    dollyC.state = State.DOLLYING ∧ dollyC.fixUpCount = 0 ∧
    (dolly dollyC 0 100).fixUpCount = 1 := by
  refine ⟨rfl, rfl, ?_⟩
  rw [dolly_eq_of_guard rfl dollyGuard_dollyC 0, dollyApply_fixUpCount,
      if_neg (by decide : ¬(dollyC.state = State.ROTATING))]
  rfl

/-- Claim C4 amended: `fixUp` never runs during rotate moves, runs exactly
once at a release from `ROTATING`, and additionally runs once on every
applied dolly step and every pan step (via `update`, which invokes it
whenever the state is not `ROTATING`). -/
theorem fixUp_invocations :
    (∀ (c : Controls) (x y : ℝ), (rotate c x y).fixUpCount = c.fixUpCount) ∧
    (∀ c : Controls, c.state = State.ROTATING →
      (onMouseUp c).fixUpCount = c.fixUpCount + 1) ∧
    (∀ (c : Controls) (x y : ℝ), c.state = State.DOLLYING →
      (dollyGuard c y → (dolly c x y).fixUpCount = c.fixUpCount + 1) ∧
      (¬dollyGuard c y → (dolly c x y).fixUpCount = c.fixUpCount)) ∧
    (∀ (c : Controls) (x y : ℝ), c.state = State.PANNING →
      (pan c x y).fixUpCount = c.fixUpCount + 1) := by
  refine ⟨rotate_fixUpCount, ?_, ?_, fun c x y hs => pan_fixUpCount_of_panning hs x y⟩
  · intro c hR
    rw [onMouseUp_fixUpCount, if_pos hR]
  · intro c x y hs
    constructor
    · intro hg
      rw [dolly_eq_of_guard hs hg, dollyApply_fixUpCount,
          if_neg (by rw [hs]; exact fun h => absurd h (by decide))]
    · intro hg
      rw [dolly_eq_of_not_guard hs hg]

/-- Claim C4 amended witness: concrete instances of the release, dolly and
pan cases. -/
theorem fixUp_invocations_witness :
    rotC.state = State.ROTATING ∧ (onMouseUp rotC).fixUpCount = rotC.fixUpCount + 1 ∧
    dollyC.state = State.DOLLYING ∧ dollyGuard dollyC 100 ∧
    (dolly dollyC 0 100).fixUpCount = dollyC.fixUpCount + 1 ∧
    panC.state = State.PANNING ∧ (pan panC 0 0).fixUpCount = panC.fixUpCount + 1 :=
  ⟨rfl, fixUp_invocations.2.1 rotC rfl, rfl, dollyGuard_dollyC,
   (fixUp_invocations.2.2.1 dollyC 0 100 rfl).1 dollyGuard_dollyC, rfl,
   fixUp_invocations.2.2.2 panC 0 0 rfl⟩

/-- Claim C5 counterexample: for a wheel event with `deltaY = 30` on a
camera at distance 5 the applied distance change is 1, not the raw
`deltaY` with a sign flip: the wheel delta does pass through the
pixel-to-world scaling. -/
theorem wheel_change_not_raw_delta :
    distToTarget baseC = 5 ∧ distToTarget (onMouseWheel baseC 30) = 6 ∧
    distToTarget (onMouseWheel baseC 30) - distToTarget baseC ≠ 30 ∧
    distToTarget (onMouseWheel baseC 30) - distToTarget baseC ≠ -30 := by
  refine ⟨distToTarget_baseC, distToTarget_onMouseWheel_baseC, ?_, ?_⟩ <;>
    rw [distToTarget_baseC, distToTarget_onMouseWheel_baseC] <;> norm_num

/-- Claim C5 amended: a wheel event feeds `-deltaY` as the pointer position
with `prev = (0,0)`, so the pixel delta equals `deltaY` and the applied
change of distance is `zoomSpeed * pxToWorld * deltaY`: it goes through the
same pixel-to-world scaling as a drag move. -/
theorem wheel_distance_change (c : Controls) (dY : ℝ)
    (hd : 0 < distToTarget c) (h0 : 0 ≤ c.minDistance)
    (hg : dollyGuard { c with state := State.DOLLYING, prev := ⟨0, 0⟩ } (-dY)) :
    distToTarget (onMouseWheel c dY)
      = distToTarget c +
        c.zoomSpeed * (min (c.maxDistance - c.minDistance) (2 * distToTarget c)
          / c.clientHeight) * dY := by
  set c1 := { c with state := State.DOLLYING, prev := (⟨0, 0⟩ : Vec2) } with hc1
  have hdc1 : distToTarget c1 = distToTarget c := rfl
  have hdelta : dollyDelta c1 (-dY)
      = c.zoomSpeed * (min (c.maxDistance - c.minDistance) (2 * distToTarget c)
          / c.clientHeight) * dY := by
    unfold dollyDelta
    rw [hdc1]
    show c.zoomSpeed * (min (c.maxDistance - c.minDistance) (2 * distToTarget c)
        / c.clientHeight) * (0 - -dY) = _
    ring
  have happ : onMouseWheel c dY = dollyApply c1 0 (-dY) := by
    unfold onMouseWheel
    exact dolly_eq_of_guard rfl hg 0
  have hnn : 0 ≤ distToTarget c1 + dollyDelta c1 (-dY) := le_trans h0 hg.1
  rw [happ, distToTarget_dollyApply c1 0 (-dY) (by rw [hdc1]; exact hd) hnn, hdc1, hdelta]

/-- Claim C5 amended witness: the concrete wheel event of the
counterexample satisfies the amended formula. -/
theorem wheel_distance_change_witness :
    0 < distToTarget baseC ∧ (0 : ℝ) ≤ baseC.minDistance ∧
    dollyGuard wheelC (-30) ∧
    distToTarget (onMouseWheel baseC 30)
      = distToTarget baseC +
        baseC.zoomSpeed * (min (baseC.maxDistance - baseC.minDistance)
          (2 * distToTarget baseC) / baseC.clientHeight) * 30 := by
  have hd : 0 < distToTarget baseC := by
    rw [distToTarget_baseC]
    norm_num
  exact ⟨hd, le_refl _, dollyGuard_wheelC,
    wheel_distance_change baseC 30 hd (le_refl _) dollyGuard_wheelC⟩

/-- Claim C6 counterexample: a single wheel tick does not return the state
machine to the idle state: it leaves it in `DOLLYING`. -/
theorem wheel_not_back_to_idle :
    (onMouseWheel baseC 30).state = State.DOLLYING ∧
    State.DOLLYING ≠ State.INACTIVE := by
  constructor
  · rw [onMouseWheel_baseC_eq, dollyApply_state]
    rfl
  · decide

/-- Claim C6 amended: only a release returns the machine to the idle state
(`onMouseUp` always ends in `INACTIVE`); a wheel tick leaves it in
`DOLLYING` and a recognized arrow key leaves it in `PANNING` (an
unrecognized key is a no-op). -/
theorem handler_terminal_states :
    (∀ c : Controls, (onMouseUp c).state = State.INACTIVE) ∧
    (∀ (c : Controls) (dY : ℝ), (onMouseWheel c dY).state = State.DOLLYING) ∧
    (∀ (c : Controls) (k : ℕ),
      (onKeyDown c k).state = State.PANNING ∨ onKeyDown c k = c) := by
  refine ⟨onMouseUp_state, ?_, ?_⟩
  · intro c dY
    unfold onMouseWheel
    rw [dolly_state_of_ne (fun h => State.noConfusion h) 0 (-dY)]
  · intro c k
    unfold onKeyDown
    split
    · left
      rw [pan_state_of_ne (fun h => State.noConfusion h) _ _]
    · split
      · left
        rw [pan_state_of_ne (fun h => State.noConfusion h) _ _]
      · split
        · left
          rw [pan_state_of_ne (fun h => State.noConfusion h) _ _]
        · split
          · left
            rw [pan_state_of_ne (fun h => State.noConfusion h) _ _]
          · right
            rfl

/-! ## Rotation geometry -/

theorem applyBasis_sub_basisT (c : Controls) (p : Vec3) :
    c.basisT.sub (applyBasis c p)
      = ((c.basisX.smul p.x).add ((c.basisY.smul p.y).add (c.basisZ.smul p.z))).smul (-1) := by
  ext <;> (simp only [applyBasis, Vec3.add, Vec3.smul, Vec3.sub]; ring)

theorem basis_combo_dot (c : Controls) (ho : OrthonormalBasis c) (p : Vec3) :
    ((c.basisX.smul p.x).add ((c.basisY.smul p.y).add (c.basisZ.smul p.z))).dot
      ((c.basisX.smul p.x).add ((c.basisY.smul p.y).add (c.basisZ.smul p.z)))
      = p.x * p.x + p.y * p.y + p.z * p.z := by
  obtain ⟨hxx, hyy, hzz, hxy, hxz, hyz⟩ := ho
  have hyx : c.basisY.dot c.basisX = 0 := (Vec3.dot_comm _ _).trans hxy
  have hzx : c.basisZ.dot c.basisX = 0 := (Vec3.dot_comm _ _).trans hxz
  have hzy : c.basisZ.dot c.basisY = 0 := (Vec3.dot_comm _ _).trans hyz
  simp only [Vec3.add_dot, Vec3.dot_add, Vec3.smul_dot, Vec3.dot_smul,
    hxx, hyy, hzz, hxy, hxz, hyz, hyx, hzx, hzy]
  ring

theorem rotateLocal_norm (c : Controls) (x y : ℝ) :
    (rotateLocalPos c x y).x * (rotateLocalPos c x y).x
      + (rotateLocalPos c x y).y * (rotateLocalPos c x y).y
      + (rotateLocalPos c x y).z * (rotateLocalPos c x y).z = c.radius * c.radius := by
  have h1 := Real.sin_sq_add_cos_sq (rotateTheta c y)
  have h2 := Real.sin_sq_add_cos_sq (rotatePhi c x)
  simp only [rotateLocalPos]
  linear_combination (c.radius * c.radius * Real.sin (rotateTheta c y) ^ 2) * h2
    + (c.radius * c.radius) * h1

/-- Claim C3: while `ROTATING`, a rotate move places the camera at distance
exactly `radius` (the value captured at gesture confirmation) from the
target, provided the captured frame is orthonormal, the captured radius is
nonnegative, and the captured translation is the (unchanged) target. -/
theorem rotate_preserves_radius (c : Controls) (x y : ℝ)
    (hs : c.state = State.ROTATING) (ho : OrthonormalBasis c)
    (ht : c.basisT = c.target) (hr : 0 ≤ c.radius) :
    distToTarget (rotate c x y) = c.radius := by
  rw [rotate_eq_of_rotating hs, distToTarget_eq, update_target, update_position]
  show (c.target.sub (applyBasis c (rotateLocalPos c x y))).length = c.radius
  rw [← ht, applyBasis_sub_basisT, Vec3.length_smul, abs_neg, abs_one, one_mul]
  unfold Vec3.length
  rw [basis_combo_dot c ho (rotateLocalPos c x y), rotateLocal_norm]
  exact sqrt_of_sq hr rfl

/-- Claim C3 witness: a rotate move on a concrete `ROTATING` state with the
captured identity frame and radius 5. -/
theorem rotate_preserves_radius_witness :
    rotC.state = State.ROTATING ∧ OrthonormalBasis rotC ∧
    rotC.basisT = rotC.target ∧ (0 : ℝ) ≤ rotC.radius ∧
    distToTarget (rotate rotC 150 100) = rotC.radius := by
  have ho : OrthonormalBasis rotC := by
    refine ⟨?_, ?_, ?_, ?_, ?_, ?_⟩ <;> norm_num [OrthonormalBasis, rotC, baseC, Vec3.dot]
  have hr : (0 : ℝ) ≤ rotC.radius := by norm_num [rotC, baseC]
  exact ⟨rfl, ho, rfl, hr, rotate_preserves_radius rotC 150 100 rfl ho rfl hr⟩

/-- Claim C8: for every move processed while `ROTATING`, the inclination
used lies within `[eps, pi - eps]` with `eps = 0.01`, and — when the
captured frame is orthonormal and the captured radius positive — the
computed camera position is never exactly collinear with the captured
frame's up axis. -/
theorem rotate_theta_clamped_not_collinear (c : Controls) (x y : ℝ)
    (hs : c.state = State.ROTATING) (ho : OrthonormalBasis c) (hr : 0 < c.radius) :
    rotateEps ≤ rotateTheta c y ∧ rotateTheta c y ≤ Real.pi - rotateEps ∧
    ∀ t : ℝ, (rotate c x y).position.sub c.basisT ≠ c.basisY.smul t := by
  have hpi : rotateEps ≤ Real.pi - rotateEps := by
    unfold rotateEps
    nlinarith [Real.pi_gt_three]
  have h1 : rotateEps ≤ rotateTheta c y := by
    unfold rotateTheta
    exact le_min (le_max_right _ _) hpi
  have h2 : rotateTheta c y ≤ Real.pi - rotateEps := by
    unfold rotateTheta
    exact min_le_right _ _
  refine ⟨h1, h2, ?_⟩
  intro t hcol
  rw [rotate_eq_of_rotating hs, update_position] at hcol
  have hcol2 : ((c.basisX.smul (rotateLocalPos c x y).x).add
      ((c.basisY.smul (rotateLocalPos c x y).y).add
        (c.basisZ.smul (rotateLocalPos c x y).z))) = c.basisY.smul t := by
    have hsub := applyBasis_sub_basisT c (rotateLocalPos c x y)
    have hpos : ({ c with position := applyBasis c (rotateLocalPos c x y) } :
        Controls).position = applyBasis c (rotateLocalPos c x y) := rfl
    rw [hpos] at hcol
    ext <;> (have hx := congrArg Vec3.x hcol
             have hy := congrArg Vec3.y hcol
             have hz := congrArg Vec3.z hcol
             simp only [applyBasis, Vec3.add, Vec3.smul, Vec3.sub] at hx hy hz ⊢
             linarith)
  obtain ⟨hxx, hyy, hzz, hxy, hxz, hyz⟩ := ho
  have hyx : c.basisY.dot c.basisX = 0 := (Vec3.dot_comm _ _).trans hxy
  have hzx : c.basisZ.dot c.basisX = 0 := (Vec3.dot_comm _ _).trans hxz
  have hzy : c.basisZ.dot c.basisY = 0 := (Vec3.dot_comm _ _).trans hyz
  have hdx := congrArg (fun v => v.dot c.basisX) hcol2
  have hdz := congrArg (fun v => v.dot c.basisZ) hcol2
  simp only [Vec3.add_dot, Vec3.smul_dot, hxx, hyy, hzz, hxy, hxz, hyz, hyx, hzx, hzy,
    mul_zero, mul_one, add_zero, zero_add] at hdx hdz
  simp only [rotateLocalPos] at hdx hdz
  have hth : 0 < Real.sin (rotateTheta c y) := by
    apply Real.sin_pos_of_pos_of_lt_pi
    · have : (0 : ℝ) < rotateEps := by
        unfold rotateEps
        norm_num
      linarith
    · have : Real.pi - rotateEps < Real.pi := by
        unfold rotateEps
        norm_num
      linarith
  have hrs : c.radius * Real.sin (rotateTheta c y) ≠ 0 :=
    mul_ne_zero (ne_of_gt hr) (ne_of_gt hth)
  have hsphi : Real.sin (rotatePhi c x) = 0 := by
    rcases mul_eq_zero.mp hdx with h | h
    · exact absurd h hrs
    · exact h
  have hcphi : Real.cos (rotatePhi c x) = 0 := by
    rcases mul_eq_zero.mp hdz with h | h
    · exact absurd h hrs
    · exact h
  have hsum := Real.sin_sq_add_cos_sq (rotatePhi c x)
  rw [hsphi, hcphi] at hsum
  norm_num at hsum

/-- Claim C8 witness: a rotate move on a concrete `ROTATING` state with a
large vertical drag. -/
theorem rotate_theta_clamped_not_collinear_witness :
    rotC.state = State.ROTATING ∧ OrthonormalBasis rotC ∧ (0 : ℝ) < rotC.radius ∧
    (rotateEps ≤ rotateTheta rotC 2000 ∧
     rotateTheta rotC 2000 ≤ Real.pi - rotateEps ∧
     ∀ t : ℝ, (rotate rotC 150 2000).position.sub rotC.basisT ≠ rotC.basisY.smul t) := by
  have ho : OrthonormalBasis rotC := by
    refine ⟨?_, ?_, ?_, ?_, ?_, ?_⟩ <;> norm_num [OrthonormalBasis, rotC, baseC, Vec3.dot]
  have hr : (0 : ℝ) < rotC.radius := by norm_num [rotC, baseC]
  exact ⟨rfl, ho, hr, rotate_theta_clamped_not_collinear rotC 150 2000 rfl ho hr⟩

/-! ## Reset idempotence -/

theorem fixUpNewUp_idem (p t u : Vec3) (h : (t.sub p).length ≠ 0) :
    fixUpNewUp p t (fixUpNewUp p t u) = fixUpNewUp p t u := by
  unfold fixUpNewUp
  dsimp only
  set v := (t.sub p).normalize with hv
  have hv1 : v.length = 1 := Vec3.normalize_length h
  have hvv : v.dot v = 1 := by
    rw [← Vec3.length_mul_self, hv1]
    norm_num
  by_cases hw : v.cross u = ⟨0, 0, 0⟩
  · rw [hw, Vec3.normalize_zero, Vec3.zero_cross, Vec3.normalize_zero, Vec3.cross_zero,
        Vec3.normalize_zero, Vec3.zero_cross, Vec3.normalize_zero]
  · have hlw : (v.cross u).length ≠ 0 := Vec3.length_ne_zero_of_ne hw
    have hside : (v.cross u).normalize.length = 1 := Vec3.normalize_length hlw
    set s := (v.cross u).normalize with hs
    have hsv : s.dot v = 0 := by
      rw [hs]
      exact Vec3.normalize_cross_dot_left v u
    have hss : s.dot s = 1 := by
      rw [← Vec3.length_mul_self, hside]
      norm_num
    set q := s.cross v with hq
    have hqq : q.dot q = 1 := by
      rw [hq, Vec3.cross_dot_cross, hss, hvv, hsv]
      norm_num
    have hql : q.length = 1 := by
      unfold Vec3.length
      rw [hqq]
      exact Real.sqrt_one
    have hqn : q.normalize = q := Vec3.normalize_of_length_one hql
    rw [hqn]
    have hw2 : v.cross q = s := by
      rw [hq, Vec3.cross_of_cross_right, hvv,
          show v.dot s = 0 from (Vec3.dot_comm v s).trans hsv,
          Vec3.smul_one, Vec3.smul_zero, Vec3.sub_zero_vec]
    rw [hw2, Vec3.normalize_of_length_one hside, ← hq]
    exact hqn

theorem reset_position (c : Controls) : (reset c).position = c.position0 := by
  unfold reset
  rw [update_position]

theorem reset_target (c : Controls) : (reset c).target = c.target0 := by
  unfold reset
  rw [update_target]

theorem reset_state (c : Controls) : (reset c).state = c.state := by
  unfold reset
  rw [update_state]

theorem reset_position0 (c : Controls) : (reset c).position0 = c.position0 := by
  unfold reset
  rw [update_position0]

theorem reset_target0 (c : Controls) : (reset c).target0 = c.target0 := by
  unfold reset
  rw [update_target0]

theorem reset_up (c : Controls) :
    (reset c).up = if c.state = State.ROTATING then c.up
                   else fixUpNewUp c.position0 c.target0 c.up := by
  unfold reset
  rw [update_up]

/-- Claim C9: calling `reset` twice produces the same camera position, up
vector and target as calling it once, when the stored initial position
differs from the stored initial target. -/
theorem reset_idempotent (c : Controls) (h : c.position0 ≠ c.target0) :
    (reset (reset c)).position = (reset c).position ∧
    (reset (reset c)).up = (reset c).up ∧
    (reset (reset c)).target = (reset c).target := by
  have hlen : (c.target0.sub c.position0).length ≠ 0 := by
    intro h0
    apply h
    have hz := Vec3.eq_zero_of_length_eq_zero h0
    simp only [Vec3.sub, Vec3.mk.injEq] at hz
    obtain ⟨h1, h2, h3⟩ := hz
    ext <;> linarith
  refine ⟨by rw [reset_position, reset_position0, reset_position], ?_,
    by rw [reset_target, reset_target0, reset_target]⟩
  rw [reset_up (reset c), reset_state, reset_position0, reset_target0, reset_up c]
  by_cases hR : c.state = State.ROTATING
  · simp [hR]
  · simp only [if_neg hR]
    exact fixUpNewUp_idem _ _ _ hlen

/-- Claim C9 witness: the reference state has distinct initial position and
target. -/
theorem reset_idempotent_witness :
    baseC.position0 ≠ baseC.target0 ∧
    (reset (reset baseC)).position = (reset baseC).position ∧
    (reset (reset baseC)).up = (reset baseC).up ∧
    (reset (reset baseC)).target = (reset baseC).target := by
  have hne : baseC.position0 ≠ baseC.target0 := by
    intro h
    have h5 := congrArg Vec3.z h
    norm_num [baseC] at h5
  obtain ⟨h1, h2, h3⟩ := reset_idempotent baseC hne
  exact ⟨hne, h1, h2, h3⟩

/-! ## Gesture and click-threshold lemmas -/

theorem rotate_noop_below {c : Controls} (hs : c.state = State.INDETERMINATE) {x y : ℝ}
    (hd : Vec2.manhattanDistanceTo ⟨x, y⟩ c.prev ≤ ClickThreshold) :
    rotate c x y = c := by
  have hnp : ¬(c.state = State.INDETERMINATE ∧
      ClickThreshold < Vec2.manhattanDistanceTo ⟨x, y⟩ c.prev) :=
    fun hc => absurd hc.2 (not_lt.mpr hd)
  have hnr : ¬(c.state = State.ROTATING) := by
    rw [hs]
    exact fun h => absurd h (by decide)
  unfold rotate
  rw [if_neg hnp, if_neg hnr]

theorem dolly_noop_below {c : Controls} (hs : c.state = State.INDETERMINATE) {x y : ℝ}
    (hd : Vec2.manhattanDistanceTo ⟨x, y⟩ c.prev ≤ ClickThreshold) :
    dolly c x y = c := by
  have hnp : ¬(c.state = State.INDETERMINATE ∧
      ClickThreshold < Vec2.manhattanDistanceTo ⟨x, y⟩ c.prev) :=
    fun hc => absurd hc.2 (not_lt.mpr hd)
  have hnr : ¬(c.state = State.DOLLYING) := by
    rw [hs]
    exact fun h => absurd h (by decide)
  unfold dolly
  rw [if_neg hnp, if_neg hnr]

theorem pan_noop_below {c : Controls} (hs : c.state = State.INDETERMINATE) {x y : ℝ}
    (hd : Vec2.manhattanDistanceTo ⟨x, y⟩ c.prev ≤ ClickThreshold) :
    pan c x y = c := by
  have hnp : ¬(c.state = State.INDETERMINATE ∧
      ClickThreshold < Vec2.manhattanDistanceTo ⟨x, y⟩ c.prev) :=
    fun hc => absurd hc.2 (not_lt.mpr hd)
  have hnr : ¬(c.state = State.PANNING) := by
    rw [hs]
    exact fun h => absurd h (by decide)
  unfold pan
  rw [if_neg hnp, if_neg hnr]

theorem onMouseMove_noop {c : Controls} (hs : c.state = State.INDETERMINATE) (e : MoveEvent)
    (hd : Vec2.manhattanDistanceTo ⟨e.x, e.y⟩ c.prev ≤ ClickThreshold) :
    onMouseMove c e = c := by
  unfold onMouseMove
  split
  · split
    · exact pan_noop_below hs hd
    · exact rotate_noop_below hs hd
  · split
    · exact pan_noop_below hs hd
    · split
      · exact dolly_noop_below hs hd
      · rfl

theorem onMouseMove_state_stable {c : Controls} (h : c.state ≠ State.INDETERMINATE)
    (e : MoveEvent) : (onMouseMove c e).state = c.state := by
  unfold onMouseMove
  split
  · split
    · exact pan_state_of_ne h _ _
    · exact rotate_state_of_ne h _ _
  · split
    · exact pan_state_of_ne h _ _
    · split
      · exact dolly_state_of_ne h _ _
      · rfl

theorem onMouseMove_promotes {c : Controls} (hs : c.state = State.INDETERMINATE)
    (e : MoveEvent) (hb : e.buttons = 1 ∨ e.buttons = 2 ∨ e.buttons = 4)
    (hd : ClickThreshold < Vec2.manhattanDistanceTo ⟨e.x, e.y⟩ c.prev) :
    (onMouseMove c e).state ≠ State.INDETERMINATE := by
  have h1 : (pan c e.x e.y).state = State.PANNING := pan_state_promote hs hd
  have h2 : (rotate c e.x e.y).state = State.ROTATING := rotate_state_promote hs hd
  have h3 : (dolly c e.x e.y).state = State.DOLLYING := dolly_state_promote hs hd
  unfold onMouseMove
  rcases hb with hb | hb | hb
  · rw [if_pos hb]
    split
    · rw [h1]
      decide
    · rw [h2]
      decide
  · have hb1 : ¬(e.buttons = 1) := by
      rw [hb]
      norm_num
    rw [if_neg hb1, if_pos hb]
    rw [h1]
    decide
  · have hb1 : ¬(e.buttons = 1) := by
      rw [hb]
      norm_num
    have hb2 : ¬(e.buttons = 2) := by
      rw [hb]
      norm_num
    rw [if_neg hb1, if_neg hb2, if_pos hb]
    rw [h3]
    decide

theorem rotate_indet_cases {c : Controls} (hs : c.state = State.INDETERMINATE) (x y : ℝ) :
    rotate c x y = c ∨ (rotate c x y).state = State.ROTATING := by
  by_cases hthr : ClickThreshold < Vec2.manhattanDistanceTo ⟨x, y⟩ c.prev
  · exact Or.inr (rotate_state_promote hs hthr)
  · exact Or.inl (rotate_noop_below hs (not_lt.mp hthr))

theorem dolly_indet_cases {c : Controls} (hs : c.state = State.INDETERMINATE) (x y : ℝ) :
    dolly c x y = c ∨ (dolly c x y).state = State.DOLLYING := by
  by_cases hthr : ClickThreshold < Vec2.manhattanDistanceTo ⟨x, y⟩ c.prev
  · exact Or.inr (dolly_state_promote hs hthr)
  · exact Or.inl (dolly_noop_below hs (not_lt.mp hthr))

theorem pan_indet_cases {c : Controls} (hs : c.state = State.INDETERMINATE) (x y : ℝ) :
    pan c x y = c ∨ (pan c x y).state = State.PANNING := by
  by_cases hthr : ClickThreshold < Vec2.manhattanDistanceTo ⟨x, y⟩ c.prev
  · exact Or.inr (pan_state_promote hs hthr)
  · exact Or.inl (pan_noop_below hs (not_lt.mp hthr))

theorem onMouseMove_indet_cases {c : Controls} (hs : c.state = State.INDETERMINATE)
    (e : MoveEvent) :
    onMouseMove c e = c ∨ (onMouseMove c e).state ≠ State.INDETERMINATE := by
  unfold onMouseMove
  split
  · split
    · rcases pan_indet_cases hs e.x e.y with h | h
      · exact Or.inl h
      · right
        rw [h]
        decide
    · rcases rotate_indet_cases hs e.x e.y with h | h
      · exact Or.inl h
      · right
        rw [h]
        decide
  · split
    · rcases pan_indet_cases hs e.x e.y with h | h
      · exact Or.inl h
      · right
        rw [h]
        decide
    · split
      · rcases dolly_indet_cases hs e.x e.y with h | h
        · exact Or.inl h
        · right
          rw [h]
          decide
      · exact Or.inl rfl

theorem processMoves_noop (c : Controls) (px py : ℝ) :
    ∀ moves : List MoveEvent,
    (∀ e ∈ moves, Vec2.manhattanDistanceTo ⟨e.x, e.y⟩ ⟨px, py⟩ ≤ ClickThreshold) →
    processMoves (onMouseDown c px py) moves = onMouseDown c px py := by
  intro moves
  induction moves with
  | nil => exact fun _ => rfl
  | cons e rest ih =>
    intro hall
    have h1 : onMouseMove (onMouseDown c px py) e = onMouseDown c px py :=
      onMouseMove_noop rfl e (hall e (List.mem_cons_self e rest))
    show processMoves (onMouseMove (onMouseDown c px py) e) rest = onMouseDown c px py
    rw [h1]
    exact ih (fun e' he' => hall e' (List.mem_cons_of_mem e he'))

theorem processMoves_stable (moves : List MoveEvent) :
    ∀ c : Controls, c.state ≠ State.INDETERMINATE →
    (processMoves c moves).state ≠ State.INDETERMINATE := by
  induction moves with
  | nil => exact fun c h => h
  | cons e rest ih =>
    intro c h
    exact ih (onMouseMove c e) (by rw [onMouseMove_state_stable h]; exact h)

theorem processMoves_stay_or_leave (moves : List MoveEvent) :
    ∀ c : Controls, c.state = State.INDETERMINATE →
    processMoves c moves = c ∨ (processMoves c moves).state ≠ State.INDETERMINATE := by
  induction moves with
  | nil => exact fun c _ => Or.inl rfl
  | cons e rest ih =>
    intro c hc
    rcases onMouseMove_indet_cases hc e with heq | hne
    · show processMoves (onMouseMove c e) rest = c ∨
        (processMoves (onMouseMove c e) rest).state ≠ State.INDETERMINATE
      rw [heq]
      exact ih c hc
    · right
      exact processMoves_stable rest (onMouseMove c e) hne

theorem dolly_promote_not_guard {c : Controls} {x y : ℝ}
    (hs : c.state = State.INDETERMINATE)
    (hthr : ClickThreshold < Vec2.manhattanDistanceTo ⟨x, y⟩ c.prev)
    (hg : ¬dollyGuard { c with state := State.DOLLYING } y) :
    dolly c x y = { c with state := State.DOLLYING } := by
  have hp : c.state = State.INDETERMINATE ∧
      ClickThreshold < Vec2.manhattanDistanceTo ⟨x, y⟩ c.prev := ⟨hs, hthr⟩
  unfold dolly
  rw [if_pos hp]
  dsimp only
  rw [if_pos (show ({ c with state := State.DOLLYING } : Controls).state = State.DOLLYING
        from rfl), if_neg hg]

/-- Claim C7 amended: a press/release pair whose every intervening move
stays within the click threshold of the press position yields
`clicked = true` and leaves camera position, up, target and the change
counter untouched; if some move with a recognized button mask (1, 2 or 4)
exceeds the threshold, the release yields `clicked = false` (but a camera
mutation is not guaranteed: a dolly gesture may have every step rejected by
the distance bounds). -/
theorem click_threshold_behavior :
    (∀ (c : Controls) (px py : ℝ) (moves : List MoveEvent),
      (∀ e ∈ moves, Vec2.manhattanDistanceTo ⟨e.x, e.y⟩ ⟨px, py⟩ ≤ ClickThreshold) →
      (gesture c px py moves).clicked = true ∧
      (gesture c px py moves).position = c.position ∧
      (gesture c px py moves).up = c.up ∧
      (gesture c px py moves).target = c.target ∧
      (gesture c px py moves).changedCount = c.changedCount) ∧
    (∀ (c : Controls) (px py : ℝ) (moves : List MoveEvent),
      (∃ e ∈ moves, (e.buttons = 1 ∨ e.buttons = 2 ∨ e.buttons = 4) ∧
        ClickThreshold < Vec2.manhattanDistanceTo ⟨e.x, e.y⟩ ⟨px, py⟩) →
      (gesture c px py moves).clicked = false) := by
  constructor
  · intro c px py moves hall
    have hp : processMoves (onMouseDown c px py) moves = onMouseDown c px py :=
      processMoves_noop c px py moves hall
    unfold gesture
    rw [hp]
    have hnr : ¬((onMouseDown c px py).state = State.ROTATING) :=
      fun h => State.noConfusion h
    refine ⟨?_, ?_, ?_, ?_, ?_⟩
    · rw [onMouseUp_clicked]
      rfl
    · rw [onMouseUp_position]
      rfl
    · rw [onMouseUp_up, if_neg hnr]
      rfl
    · rw [onMouseUp_target]
      rfl
    · rw [onMouseUp_changedCount]
      rfl
  · intro c px py moves hex
    obtain ⟨e, he, hb, hd⟩ := hex
    obtain ⟨l1, l2, hsplit⟩ := List.append_of_mem he
    subst hsplit
    have hstate : (processMoves (onMouseDown c px py) (l1 ++ e :: l2)).state
        ≠ State.INDETERMINATE := by
      have hfold : processMoves (onMouseDown c px py) (l1 ++ e :: l2)
          = processMoves (onMouseMove (processMoves (onMouseDown c px py) l1) e) l2 := by
        unfold processMoves
        rw [List.foldl_append]
        rfl
      rw [hfold]
      apply processMoves_stable
      rcases processMoves_stay_or_leave l1 (onMouseDown c px py) rfl with hcase | hcase
      · rw [hcase]
        exact onMouseMove_promotes rfl e hb hd
      · rw [onMouseMove_state_stable hcase]
        exact hcase
    unfold gesture
    rw [onMouseUp_clicked]
    exact decide_eq_false hstate

/-- Claim C7 counterexample: a gesture whose only move is a middle-button
drag far over the click threshold, with `[minDistance, maxDistance] = [4, 6]`
and the move rejected by the distance guard: the release yields
`clicked = false` yet camera position, up, target and the change counter
are all untouched, refuting the claim that at least one camera mutation
occurred. -/
theorem over_threshold_gesture_without_mutation :
    ClickThreshold < Vec2.manhattanDistanceTo ⟨bigDollyMove.x, bigDollyMove.y⟩ ⟨0, 0⟩ ∧
    bigDollyMove.buttons = 4 ∧
    (gesture tightC 0 0 [bigDollyMove]).clicked = false ∧
    (gesture tightC 0 0 [bigDollyMove]).position = tightC.position ∧
    (gesture tightC 0 0 [bigDollyMove]).up = tightC.up ∧
    (gesture tightC 0 0 [bigDollyMove]).target = tightC.target ∧
    (gesture tightC 0 0 [bigDollyMove]).changedCount = tightC.changedCount := by
  have hthr : ClickThreshold <
      Vec2.manhattanDistanceTo ⟨bigDollyMove.x, bigDollyMove.y⟩ ⟨0, 0⟩ := by
    show ClickThreshold < Vec2.manhattanDistanceTo ⟨0, 1000⟩ ⟨0, 0⟩
    unfold Vec2.manhattanDistanceTo ClickThreshold
    norm_num
  set d := onMouseDown tightC 0 0 with hdd
  have hd5 : distToTarget { d with state := State.DOLLYING } = 5 := distToTarget_baseC
  have hdelta : dollyDelta { d with state := State.DOLLYING } 1000 = -20 / 3 := by
    unfold dollyDelta
    rw [hd5]
    show (1 : ℝ) * (min ((6 : ℝ) - 4) (2 * 5) / 300) * (0 - 1000) = -20 / 3
    norm_num [min_def]
  have hgneg : ¬dollyGuard { d with state := State.DOLLYING } 1000 := by
    intro hg
    have h1 : (4 : ℝ) ≤ 5 + -20 / 3 := by
      have := hg.1
      rw [hd5, hdelta] at this
      exact this
    norm_num at h1
  have hmove : processMoves d [bigDollyMove] = { d with state := State.DOLLYING } := by
    show onMouseMove d bigDollyMove = { d with state := State.DOLLYING }
    unfold onMouseMove
    rw [if_neg (by decide : ¬(bigDollyMove.buttons = 1)),
        if_neg (by decide : ¬(bigDollyMove.buttons = 2)),
        if_pos (by decide : bigDollyMove.buttons = 4)]
    exact dolly_promote_not_guard rfl hthr hgneg
  have hnr : ¬(({ d with state := State.DOLLYING } : Controls).state = State.ROTATING) := by
    exact fun h => State.noConfusion h
  unfold gesture
  rw [hmove]
  refine ⟨hthr, by decide, ?_, ?_, ?_, ?_, ?_⟩
  · rw [onMouseUp_clicked]
    rfl
  · rw [onMouseUp_position]
    rfl
  · rw [onMouseUp_up, if_neg hnr]
    rfl
  · rw [onMouseUp_target]
    rfl
  · rw [onMouseUp_changedCount]
    rfl

/-- Claim C7 amended witness: a within-threshold click on `baseC` and the
rejected over-threshold dolly gesture on `tightC`. -/
theorem click_threshold_behavior_witness :
    (∀ e ∈ [smallMove], Vec2.manhattanDistanceTo ⟨e.x, e.y⟩ ⟨0, 0⟩ ≤ ClickThreshold) ∧
    (gesture baseC 0 0 [smallMove]).clicked = true ∧
    (gesture baseC 0 0 [smallMove]).position = baseC.position ∧
    (∃ e ∈ [bigDollyMove], (e.buttons = 1 ∨ e.buttons = 2 ∨ e.buttons = 4) ∧
      ClickThreshold < Vec2.manhattanDistanceTo ⟨e.x, e.y⟩ ⟨0, 0⟩) ∧
    (gesture tightC 0 0 [bigDollyMove]).clicked = false := by
  have hsmall : ∀ e ∈ [smallMove],
      Vec2.manhattanDistanceTo ⟨e.x, e.y⟩ ⟨0, 0⟩ ≤ ClickThreshold := by
    intro e he
    rw [List.mem_singleton] at he
    subst he
    show Vec2.manhattanDistanceTo ⟨1, 1⟩ ⟨0, 0⟩ ≤ ClickThreshold
    unfold Vec2.manhattanDistanceTo ClickThreshold
    norm_num
  have hbig : ∃ e ∈ [bigDollyMove], (e.buttons = 1 ∨ e.buttons = 2 ∨ e.buttons = 4) ∧
      ClickThreshold < Vec2.manhattanDistanceTo ⟨e.x, e.y⟩ ⟨0, 0⟩ := by
    refine ⟨bigDollyMove, List.mem_singleton_self _, Or.inr (Or.inr (by decide)), ?_⟩
    show ClickThreshold < Vec2.manhattanDistanceTo ⟨0, 1000⟩ ⟨0, 0⟩
    unfold Vec2.manhattanDistanceTo ClickThreshold
    norm_num
  obtain ⟨h1, h2, -, -, -⟩ := click_threshold_behavior.1 baseC 0 0 [smallMove] hsmall
  exact ⟨hsmall, h1, h2, hbig, click_threshold_behavior.2 tightC 0 0 [bigDollyMove] hbig⟩

end OrbitUnlimited
